import Mathlib

/-!
Verification of the task execution core of the zeroclaw agent
(src/agent/task_types.rs, task_completion.rs, task_engine.rs, task_store.rs).

Strings from the Rust source are embedded as `List Char`; Rust byte
indices returned by `str::find` become character indices, which is an
order-isomorphic view for the substring-search operations the code performs.
Rust's `to_ascii_lowercase` is embedded as a character map that lowers
only the ASCII range, exactly as in Rust.
-/

/-- ASCII lowercasing of one character, as Rust `to_ascii_lowercase` does:
only `A`..`Z` are mapped, every other character is untouched. -/
def asciiLowerChar (c : Char) : Char :=
  if 'A' ≤ c ∧ c ≤ 'Z' then Char.ofNat (c.toNat + 32) else c

/-- Leftmost occurrence of `pat` in `s` (character index), the embedding of
Rust `str::find` for string and character patterns. -/
def findSubstr (pat : List Char) : List Char → Option Nat
  | [] => if pat.isPrefixOf ([] : List Char) then some 0 else none
  | c :: t =>
    if pat.isPrefixOf (c :: t) then some 0
    else (findSubstr pat t).map (· + 1)

/-- Embedding of Rust `str::contains`. -/
def hasSubstr (s pat : List Char) : Bool :=
  (findSubstr pat s).isSome

/-- The Unicode White_Space property, as decided by Rust
`char::is_whitespace`: U+0009..U+000D, U+0020, U+0085, U+00A0, U+1680,
U+2000..U+200A, U+2028, U+2029, U+202F, U+205F and U+3000. -/
def rustIsWhitespace (c : Char) : Bool :=
  decide ((9 ≤ c.toNat ∧ c.toNat ≤ 13) ∨ c.toNat = 32 ∨ c.toNat = 133 ∨
    c.toNat = 160 ∨ c.toNat = 5760 ∨ (8192 ≤ c.toNat ∧ c.toNat ≤ 8202) ∨
    c.toNat = 8232 ∨ c.toNat = 8233 ∨ c.toNat = 8239 ∨ c.toNat = 8287 ∨
    c.toNat = 12288)

/-- Embedding of Rust `str::trim`: strip characters with the Unicode
White_Space property from both ends. -/
def trimList (s : List Char) : List Char :=
  ((s.dropWhile rustIsWhitespace).reverse.dropWhile rustIsWhitespace).reverse

theorem findSubstr_some_length {pat s : List Char} {i : Nat}
    (h : findSubstr pat s = some i) : pat.length + i ≤ s.length := by
  induction s generalizing i with
  | nil =>
    unfold findSubstr at h
    by_cases hp : pat.isPrefixOf ([] : List Char)
    · simp [hp] at h
      have : pat = [] := by
        cases pat with
        | nil => rfl
        | cons a t => simp [List.isPrefixOf] at hp
      subst this
      omega
    · simp [hp] at h
  | cons c t ih =>
    unfold findSubstr at h
    by_cases hp : pat.isPrefixOf (c :: t)
    · simp [hp] at h
      have hle : pat.length ≤ (c :: t).length :=
        (List.isPrefixOf_iff_prefix.mp hp).length_le
      omega
    · simp [hp, Option.map_eq_some'] at h
      obtain ⟨j, hj, rfl⟩ := h
      have := ih hj
      simp only [List.length_cons]
      omega

/-! ## Task status model (src/agent/task_types.rs) -/

inductive TaskStatus where
  | Queued
  | Running
  | Blocked
  | Completed
  | Failed
  | Cancelled
deriving DecidableEq, Repr

/-- Embedding of `TaskStatus::as_str`. -/
def TaskStatus.as_str : TaskStatus → String
  | .Queued => "queued"
  | .Running => "running"
  | .Blocked => "blocked"
  | .Completed => "completed"
  | .Failed => "failed"
  | .Cancelled => "cancelled"

/-- Embedding of `TaskStatus::parse`: trim, ASCII-lowercase, then match the
six labels. -/
def TaskStatus.parse (raw : List Char) : Option TaskStatus :=
  let n := (trimList raw).map asciiLowerChar
  if n = "queued".data then some .Queued
  else if n = "running".data then some .Running
  else if n = "blocked".data then some .Blocked
  else if n = "completed".data then some .Completed
  else if n = "failed".data then some .Failed
  else if n = "cancelled".data then some .Cancelled
  else none

/-- Embedding of `TaskStatus::can_transition`. -/
def TaskStatus.can_transition (a b : TaskStatus) : Bool :=
  match a, b with
  | .Queued, .Running | .Queued, .Cancelled
  | .Running, .Running | .Running, .Blocked | .Running, .Completed
  | .Running, .Failed | .Running, .Cancelled
  | .Blocked, .Running | .Blocked, .Failed | .Blocked, .Cancelled
  | .Failed, .Running | .Failed, .Failed => true
  | _, _ => false

/-- Embedding of `TaskStatus::is_terminal`. -/
def TaskStatus.is_terminal : TaskStatus → Bool
  | .Completed | .Failed | .Cancelled => true
  | _ => false

/-- Claim C7: `can_transition` returns true exactly for the pairs of the
transition table (Queued to Running or Cancelled; Running to Running,
Blocked, Completed, Failed or Cancelled; Blocked to Running, Failed or
Cancelled; Failed to Running or Failed) and false for every transition out
of Completed or Cancelled. -/
theorem spec_c7 (a b : TaskStatus) :
    (TaskStatus.can_transition a b = true ↔
      ((a = .Queued ∧ (b = .Running ∨ b = .Cancelled)) ∨
       (a = .Running ∧ (b = .Running ∨ b = .Blocked ∨ b = .Completed ∨
          b = .Failed ∨ b = .Cancelled)) ∨
       (a = .Blocked ∧ (b = .Running ∨ b = .Failed ∨ b = .Cancelled)) ∨
       (a = .Failed ∧ (b = .Running ∨ b = .Failed)))) ∧
    TaskStatus.can_transition .Completed b = false ∧
    TaskStatus.can_transition .Cancelled b = false := by
  cases a <;> cases b <;> simp [TaskStatus.can_transition]

/-- Claim C9, counterexample: `parse` is case-insensitive, so the input
"QUEUED" — which is not one of the six lowercase labels — is accepted
rather than rejected, refuting "returns None for every other input
string". -/
theorem spec_c9_counterexample :
    TaskStatus.parse "QUEUED".data = some .Queued ∧
    "QUEUED" ≠ "queued" ∧ "QUEUED" ≠ "running" ∧ "QUEUED" ≠ "blocked" ∧
    "QUEUED" ≠ "completed" ∧ "QUEUED" ≠ "failed" ∧ "QUEUED" ≠ "cancelled" := by
  refine ⟨by decide, ?_, ?_, ?_, ?_, ?_, ?_⟩ <;> decide

/-- Claim C9, amended: `parse` first trims whitespace and ASCII-lowercases
its input; it returns `some status` exactly when the normalised string is
that status's lowercase label, and `none` exactly when the normalised
string is none of the six labels. -/
theorem spec_c9 (raw : List Char) :
    (∀ st : TaskStatus,
      TaskStatus.parse raw = some st ↔
        (trimList raw).map asciiLowerChar = st.as_str.data) ∧
    (TaskStatus.parse raw = none ↔
      ∀ st : TaskStatus, (trimList raw).map asciiLowerChar ≠ st.as_str.data) := by
  constructor
  · intro st
    unfold TaskStatus.parse
    cases st <;> simp only [TaskStatus.as_str] <;> split_ifs <;> simp_all
  · unfold TaskStatus.parse
    dsimp only
    constructor
    · intro h st
      split_ifs at h <;> cases st <;> simp_all [TaskStatus.as_str]
    · intro h
      split_ifs with h1 h2 h3 h4 h5 h6 <;> try rfl
      · exact absurd h1 (by simpa [TaskStatus.as_str] using h .Queued)
      · exact absurd h2 (by simpa [TaskStatus.as_str] using h .Running)
      · exact absurd h3 (by simpa [TaskStatus.as_str] using h .Blocked)
      · exact absurd h4 (by simpa [TaskStatus.as_str] using h .Completed)
      · exact absurd h5 (by simpa [TaskStatus.as_str] using h .Failed)
      · exact absurd h6 (by simpa [TaskStatus.as_str] using h .Cancelled)

/-! ## Completion evaluator (src/agent/task_completion.rs) -/

/-- Apostrophe and double-quote characters, used to build phrase and marker
lists without quoting issues. -/
def sqc : Char := Char.ofNat 39

def dqc : Char := Char.ofNat 34

def sqcStr : String := ⟨[sqc]⟩

inductive ShellToolKind where
  | WriteLike
  | ReadLike
  | Other
deriving DecidableEq, Repr

structure ChatMessage where
  role : String
  content : String
deriving DecidableEq, Repr

def ChatMessage.user (content : String) : ChatMessage := ⟨"user", content⟩

def ChatMessage.assistant (content : String) : ChatMessage := ⟨"assistant", content⟩

/-- Embedding of `classify_shell_command`: lowercase, then the write-marker
tests, then the read-marker tests, else `Other`. -/
def classify_shell_command (command : List Char) : ShellToolKind :=
  let lower := command.map asciiLowerChar
  if hasSubstr lower ">>".data || hasSubstr lower " > ".data ||
      hasSubstr lower "\n>".data || hasSubstr lower "tee ".data ||
      hasSubstr lower "touch ".data || hasSubstr lower "mkdir ".data ||
      hasSubstr lower "cp ".data || hasSubstr lower "mv ".data ||
      hasSubstr lower "truncate ".data || hasSubstr lower "sed -i".data ||
      hasSubstr lower "perl -i".data then
    .WriteLike
  else if hasSubstr lower "cat ".data || hasSubstr lower "less ".data ||
      hasSubstr lower "more ".data || hasSubstr lower "head ".data ||
      hasSubstr lower "tail ".data || hasSubstr lower "wc ".data ||
      hasSubstr lower "stat ".data || hasSubstr lower "ls ".data ||
      hasSubstr lower "find ".data || hasSubstr lower "rg ".data ||
      hasSubstr lower "grep ".data || hasSubstr lower "sed -n".data ||
      hasSubstr lower "nl ".data then
    .ReadLike
  else
    .Other

/-- Embedding of `tool_result_output_likely_failure`. -/
def tool_result_output_likely_failure (output : List Char) : Bool :=
  let lower := output.map asciiLowerChar
  hasSubstr lower "failed".data || hasSubstr lower "error".data ||
    hasSubstr lower "not allowed".data || hasSubstr lower "denied".data ||
    hasSubstr lower "missing".data || hasSubstr lower "refusing".data

def chinese_claim_hints : List (List Char) :=
  ["已写入".data, "已经写入".data, "写到了".data, "已保存".data, "已经保存".data,
   "保存到".data, "保存在".data, "保存于".data, "已存储".data, "已经存储".data,
   "存储到".data, "已创建".data, "已经创建".data, "成功创建".data,
   "已成功创建".data, "文件已成功创建".data, "已生成".data, "已经生成".data,
   "已更新".data, "已经更新".data]

def completion_verbs : List (List Char) :=
  ["i wrote".data, "written to".data, "saved to".data, "saved as".data,
   "has been saved".data, "has been written".data, "created at".data,
   "created the file".data, "updated the file".data,
   "generated the report".data, "i updated".data, "i created".data,
   "i saved".data]

def file_indicators : List (List Char) :=
  ["/".data, "\\".data, ".md".data, ".txt".data, ".rs".data, ".json".data,
   ".yaml".data, ".yml".data, ".toml".data, " file ".data, " path ".data,
   "docs/".data, "src/".data]

/-- Embedding of `looks_like_filesystem_write_claim`. -/
def looks_like_filesystem_write_claim (text : List Char) : Bool :=
  let lower := text.map asciiLowerChar
  if chinese_claim_hints.any (fun hint => hasSubstr text hint) then true
  else
    completion_verbs.any (fun hint => hasSubstr lower hint) &&
      file_indicators.any (fun hint => hasSubstr lower hint)

def completion_hints : List (List Char) :=
  ["done".data, "completed".data, "finished".data, "successfully".data,
   "已完成".data, "已经完成".data, "完成了".data, "已写入".data,
   "已经写入".data, "已保存".data, "已经保存".data, "成功创建".data,
   "已生成".data, "已经生成".data, "已更新".data, "已经更新".data]

def progress_hints : List (List Char) :=
  ["i".data ++ [sqc] ++ "m checking".data, "let me check".data,
   "i am checking".data, "i".data ++ [sqc] ++ "m reviewing".data,
   "let me review".data, "i need to inspect".data, "working on".data,
   "currently implementing".data, "我正在".data, "让我检查".data,
   "我先检查".data, "让我先查看".data, "我需要先查看".data, "正在实施".data]

/-- Embedding of `looks_like_in_progress_update`: any completion hint (in the
lowered or the raw text) vetoes, otherwise any progress hint triggers. -/
def looks_like_in_progress_update (text : List Char) : Bool :=
  let lower := text.map asciiLowerChar
  if completion_hints.any (fun hint => hasSubstr lower hint || hasSubstr text hint) then
    false
  else
    progress_hints.any (fun hint => hasSubstr lower hint || hasSubstr text hint)

/-- Result of parsing one tool-call envelope body. Modelled from the spec:
the source delegates to the external `serde_json` crate ("The body between
the tags is parsed as a JSON object; if parsing fails or the `name` field is
absent the call is skipped"), so JSON parsing is abstracted as a parameter:
`none` models a parse failure or an absent `name` field, and `command`
models the optional `arguments.command` string field. -/
structure ToolCallParsed where
  name : String
  command : Option (List Char)

def TAG_PAIRS : List (List Char × List Char) :=
  [("<tool_call>".data, "</tool_call>".data),
   ("<toolcall>".data, "</toolcall>".data),
   ("<tool-call>".data, "</tool-call>".data),
   ("<invoke>".data, "</invoke>".data)]

/-- Fuel-based embedding of Rust `str::split` for a nonempty separator; the
fuel `s.length + 1` always suffices because every step consumes at least one
character (`splitOnAux_fuel_irrelevant` below). -/
def splitOnAux (sep : List Char) : Nat → List Char → List (List Char)
  | 0, s => [s]
  | fuel + 1, s =>
    if sep.length = 0 then [s]
    else
      match findSubstr sep s with
      | none => [s]
      | some i => s.take i :: splitOnAux sep fuel (s.drop (i + sep.length))

def splitOnList (sep s : List Char) : List (List Char) :=
  splitOnAux sep (s.length + 1) s

theorem splitOnAux_fuel_irrelevant (sep : List Char) :
    ∀ f1 f2 s, s.length < f1 → s.length < f2 →
      splitOnAux sep f1 s = splitOnAux sep f2 s := by
  intro f1
  induction f1 with
  | zero => intro f2 s h1; omega
  | succ g1 ih =>
    intro f2 s h1 h2
    cases f2 with
    | zero => omega
    | succ g2 =>
      unfold splitOnAux
      by_cases hsep : sep.length = 0
      · simp [hsep]
      · simp only [hsep, if_false]
        cases hfind : findSubstr sep s with
        | none => rfl
        | some i =>
          have hlen := findSubstr_some_length hfind
          have hdrop : (s.drop (i + sep.length)).length < s.length := by
            simp only [List.length_drop]
            omega
          have := ih g2 (s.drop (i + sep.length))
            (by omega) (by omega)
          simp [this]

/-- One pass of the inner loop of
`collect_shell_tool_kinds_from_assistant_calls` over one `split` segment. -/
def processSegment (parseTC : List Char → Option ToolCallParsed)
    (closeTag : List Char) (q : List ShellToolKind) (segment : List Char) :
    List ShellToolKind :=
  match findSubstr closeTag segment with
  | none => q
  | some jsonEnd =>
    match parseTC (trimList (segment.take jsonEnd)) with
    | none => q
    | some val =>
      if val.name = "shell" then
        q ++ [(val.command.map classify_shell_command).getD .Other]
      else q

/-- Embedding of `collect_shell_tool_kinds_from_assistant_calls`: for each
tag pair in `TAG_PAIRS` order, for each segment of the content split on the
open tag, parse the prefix before the close tag and enqueue the shell kind. -/
def collect_shell_tool_kinds_from_assistant_calls
    (parseTC : List Char → Option ToolCallParsed) (content : List Char)
    (q : List ShellToolKind) : List ShellToolKind :=
  TAG_PAIRS.foldl
    (fun acc pair =>
      (splitOnList pair.1 content).foldl (processSegment parseTC pair.2) acc)
    q

def resultOpenMarker : List Char := "<tool_result name=".data ++ [dqc]

def resultCloseTag : List Char := "</tool_result>".data

structure ParsedToolResult where
  name : List Char
  output : List Char
  rest : List Char

/-- One iteration of the `collect_tool_result_evidence` while-loop: find the
next `<tool_result name="` marker, the closing quote of the name, the `>` of
the opening tag, and the closing `</tool_result>`; any failed search ends
the whole scan of the message (the Rust loop `break`s). -/
def nextToolResult (remaining : List Char) : Option ParsedToolResult :=
  match findSubstr resultOpenMarker remaining with
  | none => none
  | some start =>
    let afterName := remaining.drop (start + resultOpenMarker.length)
    match findSubstr [dqc] afterName with
    | none => none
    | some nameEnd =>
      let afterTag := afterName.drop nameEnd
      match findSubstr ['>'] afterTag with
      | none => none
      | some bodyStart =>
        let afterBody := afterTag.drop (bodyStart + 1)
        match findSubstr resultCloseTag afterBody with
        | none => none
        | some closeIdx =>
          some ⟨afterName.take nameEnd, trimList (afterBody.take closeIdx),
                afterBody.drop (closeIdx + resultCloseTag.length)⟩

theorem nextToolResult_rest_lt {remaining : List Char} {r : ParsedToolResult}
    (h : nextToolResult remaining = some r) :
    r.rest.length < remaining.length := by
  unfold nextToolResult at h
  have hpos : 0 < resultOpenMarker.length := by decide
  split at h
  · exact Option.noConfusion h
  next start h1 =>
    have hm := findSubstr_some_length h1
    dsimp only at h
    split at h
    · exact Option.noConfusion h
    next nameEnd h2 =>
      split at h
      · exact Option.noConfusion h
      next bodyStart h3 =>
        split at h
        · exact Option.noConfusion h
        next closeIdx h4 =>
          cases h
          simp only [List.length_drop]
          omega

/-- Dispatch of a tool result name to an evidence kind, the `match tool_name`
of `collect_tool_result_evidence`; `shell` dequeues from the FIFO queue of
pending shell call kinds, defaulting to `Other` when the queue is empty. -/
def resultKind (toolName : List Char) (q : List ShellToolKind) :
    ShellToolKind × List ShellToolKind :=
  if toolName = "file_write".data then (.WriteLike, q)
  else if toolName = "file_read".data then (.ReadLike, q)
  else if toolName = "shell".data then
    match q with
    | [] => (.Other, [])
    | k :: rest => (k, rest)
  else (.Other, q)

/-- Fuel-based embedding of the `collect_tool_result_evidence` while-loop;
the fuel `content.length + 1` always suffices because each parsed result
consumes at least the opening marker (`collectResultsAux_fuel_irrelevant`). -/
def collectResultsAux :
    Nat → List Char → List ShellToolKind → Bool → Bool →
      List ShellToolKind × Bool × Bool
  | 0, _, q, sw, sr => (q, sw, sr)
  | fuel + 1, content, q, sw, sr =>
    match nextToolResult content with
    | none => (q, sw, sr)
    | some r =>
      let isSuccess := !(tool_result_output_likely_failure r.output)
      let kq := resultKind r.name q
      let sw2 := sw || (decide (kq.1 = .WriteLike) && isSuccess)
      let sr2 := sr || (decide (kq.1 = .ReadLike) && isSuccess && sw2)
      collectResultsAux fuel r.rest kq.2 sw2 sr2

def collect_tool_result_evidence (content : List Char) (q : List ShellToolKind)
    (sw sr : Bool) : List ShellToolKind × Bool × Bool :=
  collectResultsAux (content.length + 1) content q sw sr

theorem collectResultsAux_fuel_irrelevant :
    ∀ f1 f2 content q sw sr, content.length < f1 → content.length < f2 →
      collectResultsAux f1 content q sw sr = collectResultsAux f2 content q sw sr := by
  intro f1
  induction f1 with
  | zero => intro f2 content q sw sr h1; omega
  | succ g1 ih =>
    intro f2 content q sw sr h1 h2
    cases f2 with
    | zero => omega
    | succ g2 =>
      unfold collectResultsAux
      cases hnext : nextToolResult content with
      | none => rfl
      | some r =>
        have hlt := nextToolResult_rest_lt hnext
        exact ih g2 r.rest _ _ _ (by omega) (by omega)

structure ToolEvidence where
  saw_successful_write : Bool
  saw_post_write_read_after_success : Bool
deriving DecidableEq, Repr

/-- The history walk of `collect_tool_evidence`: assistant messages feed the
pending shell-kind queue, user messages are scanned for tool results, other
roles are ignored. -/
def collectToolEvidenceGo (parseTC : List Char → Option ToolCallParsed) :
    List ChatMessage → List ShellToolKind → Bool → Bool → ToolEvidence
  | [], _, sw, sr => ⟨sw, sr⟩
  | m :: rest, q, sw, sr =>
    if m.role = "assistant" then
      collectToolEvidenceGo parseTC rest
        (collect_shell_tool_kinds_from_assistant_calls parseTC m.content.data q)
        sw sr
    else if m.role = "user" then
      let t := collect_tool_result_evidence m.content.data q sw sr
      collectToolEvidenceGo parseTC rest t.1 t.2.1 t.2.2
    else
      collectToolEvidenceGo parseTC rest q sw sr

def collect_tool_evidence (parseTC : List Char → Option ToolCallParsed)
    (history : List ChatMessage) : ToolEvidence :=
  collectToolEvidenceGo parseTC history [] false false

inductive CompletionDecision where
  | Complete
  | Continue (reason : String)
deriving DecidableEq, Repr

structure CompletionEvaluation where
  decision : CompletionDecision
  saw_successful_write : Bool
  saw_post_write_read_after_success : Bool
deriving DecidableEq, Repr

/-- Embedding of `evaluate_completion`. -/
def evaluate_completion (parseTC : List Char → Option ToolCallParsed)
    (response_text : String) (history : List ChatMessage) : CompletionEvaluation :=
  let evidence := collect_tool_evidence parseTC history
  if hasSubstr response_text.data "[Guardrail Notice]".data then
    { decision := .Continue "guardrail_notice",
      saw_successful_write := evidence.saw_successful_write,
      saw_post_write_read_after_success := evidence.saw_post_write_read_after_success }
  else if looks_like_filesystem_write_claim response_text.data &&
      !evidence.saw_post_write_read_after_success then
    { decision := .Continue "write_claim_without_post_write_verification",
      saw_successful_write := evidence.saw_successful_write,
      saw_post_write_read_after_success := evidence.saw_post_write_read_after_success }
  else if looks_like_in_progress_update response_text.data then
    { decision := .Continue "in_progress_update",
      saw_successful_write := evidence.saw_successful_write,
      saw_post_write_read_after_success := evidence.saw_post_write_read_after_success }
  else
    { decision := .Complete,
      saw_successful_write := evidence.saw_successful_write,
      saw_post_write_read_after_success := evidence.saw_post_write_read_after_success }

/-- Claim C1: the decision rules of `evaluate_completion` are applied in
fixed priority order — guardrail notice, then unverified filesystem-write
claim, then in-progress update, otherwise Complete. -/
theorem spec_c1 (parseTC : List Char → Option ToolCallParsed)
    (response_text : String) (history : List ChatMessage) :
    (evaluate_completion parseTC response_text history).decision =
      (if hasSubstr response_text.data "[Guardrail Notice]".data then
        CompletionDecision.Continue "guardrail_notice"
      else if looks_like_filesystem_write_claim response_text.data &&
          !(collect_tool_evidence parseTC history).saw_post_write_read_after_success then
        CompletionDecision.Continue "write_claim_without_post_write_verification"
      else if looks_like_in_progress_update response_text.data then
        CompletionDecision.Continue "in_progress_update"
      else CompletionDecision.Complete) := by
  unfold evaluate_completion
  dsimp only
  split_ifs <;> rfl

theorem classify_ite_cases (cw cr : Bool) :
    ((if cw = true then ShellToolKind.WriteLike
      else if cr = true then ShellToolKind.ReadLike else ShellToolKind.Other) =
        ShellToolKind.WriteLike ↔ cw = true) ∧
    ((if cw = true then ShellToolKind.WriteLike
      else if cr = true then ShellToolKind.ReadLike else ShellToolKind.Other) =
        ShellToolKind.ReadLike ↔ (cw = false ∧ cr = true)) ∧
    ((if cw = true then ShellToolKind.WriteLike
      else if cr = true then ShellToolKind.ReadLike else ShellToolKind.Other) =
        ShellToolKind.Other ↔ (cw = false ∧ cr = false)) := by
  cases cw <;> cases cr <;> simp

/-- Claim C5: shell classification lowercases the command, returns
`WriteLike` exactly when a write marker occurs, otherwise `ReadLike` exactly
when a read marker occurs, otherwise `Other`; write tests are applied before
read tests, so "cat a > b" is `WriteLike`. -/
theorem spec_c5 :
    (∀ command : List Char,
      (classify_shell_command command = .WriteLike ↔
        ([">>", " > ", "\n>", "tee ", "touch ", "mkdir ", "cp ", "mv ",
          "truncate ", "sed -i", "perl -i"].any
          (fun m => hasSubstr (command.map asciiLowerChar) m.data)) = true) ∧
      (classify_shell_command command = .ReadLike ↔
        (([">>", " > ", "\n>", "tee ", "touch ", "mkdir ", "cp ", "mv ",
           "truncate ", "sed -i", "perl -i"].any
           (fun m => hasSubstr (command.map asciiLowerChar) m.data)) = false ∧
         (["cat ", "less ", "more ", "head ", "tail ", "wc ", "stat ", "ls ",
           "find ", "rg ", "grep ", "sed -n", "nl "].any
           (fun m => hasSubstr (command.map asciiLowerChar) m.data)) = true)) ∧
      (classify_shell_command command = .Other ↔
        (([">>", " > ", "\n>", "tee ", "touch ", "mkdir ", "cp ", "mv ",
           "truncate ", "sed -i", "perl -i"].any
           (fun m => hasSubstr (command.map asciiLowerChar) m.data)) = false ∧
         (["cat ", "less ", "more ", "head ", "tail ", "wc ", "stat ", "ls ",
           "find ", "rg ", "grep ", "sed -n", "nl "].any
           (fun m => hasSubstr (command.map asciiLowerChar) m.data)) = false))) ∧
    classify_shell_command "cat a > b".data = .WriteLike := by
  constructor
  · intro command
    unfold classify_shell_command
    dsimp only
    simp only [List.any_cons, List.any_nil, Bool.or_false, Bool.or_assoc]
    exact classify_ite_cases _ _
  · decide

theorem collectResultsAux_inv :
    ∀ fuel content q sw sr, (sr = true → sw = true) →
      ((collectResultsAux fuel content q sw sr).2.2 = true →
        (collectResultsAux fuel content q sw sr).2.1 = true) := by
  intro fuel
  induction fuel with
  | zero => intro content q sw sr h; exact h
  | succ g ih =>
    intro content q sw sr h
    unfold collectResultsAux
    cases hnext : nextToolResult content with
    | none => exact h
    | some r =>
      dsimp only
      apply ih
      intro hx
      rw [Bool.or_eq_true] at hx
      rcases hx with hsr | hand
      · simp [h hsr]
      · rw [Bool.and_eq_true] at hand
        exact hand.2

theorem collect_tool_result_evidence_inv (content : List Char)
    (q : List ShellToolKind) (sw sr : Bool) (h : sr = true → sw = true) :
    ((collect_tool_result_evidence content q sw sr).2.2 = true →
      (collect_tool_result_evidence content q sw sr).2.1 = true) :=
  collectResultsAux_inv (content.length + 1) content q sw sr h

theorem collectToolEvidenceGo_inv (parseTC : List Char → Option ToolCallParsed) :
    ∀ history q sw sr, (sr = true → sw = true) →
      ((collectToolEvidenceGo parseTC history q sw sr).saw_post_write_read_after_success = true →
        (collectToolEvidenceGo parseTC history q sw sr).saw_successful_write = true) := by
  intro history
  induction history with
  | nil => intro q sw sr h; exact h
  | cons m rest ih =>
    intro q sw sr h
    unfold collectToolEvidenceGo
    split_ifs with h1 h2
    · exact ih _ _ _ h
    · exact ih _ _ _ (collect_tool_result_evidence_inv m.content.data q sw sr h)
    · exact ih _ _ _ h

/-- Claim C2: the evidence scan sets `saw_post_write_read_after_success`
only on a successful read-like result occurring after a successful
write-like result, hence `evaluate_completion` never reports
`saw_post_write_read_after_success` without `saw_successful_write`. -/
theorem spec_c2 (parseTC : List Char → Option ToolCallParsed)
    (response_text : String) (history : List ChatMessage) :
    ((evaluate_completion parseTC response_text history).saw_post_write_read_after_success &&
      !(evaluate_completion parseTC response_text history).saw_successful_write) = false := by
  have hsw : (evaluate_completion parseTC response_text history).saw_successful_write =
      (collect_tool_evidence parseTC history).saw_successful_write := by
    unfold evaluate_completion
    dsimp only
    split_ifs <;> rfl
  have hsr : (evaluate_completion parseTC response_text history).saw_post_write_read_after_success =
      (collect_tool_evidence parseTC history).saw_post_write_read_after_success := by
    unfold evaluate_completion
    dsimp only
    split_ifs <;> rfl
  have hinv := collectToolEvidenceGo_inv parseTC history [] false false (fun hx => hx)
  rw [hsw, hsr]
  unfold collect_tool_evidence
  cases hA : (collectToolEvidenceGo parseTC history [] false false).saw_post_write_read_after_success
  · simp
  · simp [hinv hA]

/-- Kinds enqueued for one open/close tag pair over a whole message, in
order of appearance of that tag style. -/
def tagPairKinds (parseTC : List Char → Option ToolCallParsed)
    (content : List Char) (pair : List Char × List Char) : List ShellToolKind :=
  (splitOnList pair.1 content).foldl (processSegment parseTC pair.2) []

theorem processSegment_append (parseTC : List Char → Option ToolCallParsed)
    (closeTag : List Char) (q : List ShellToolKind) (segment : List Char) :
    processSegment parseTC closeTag q segment =
      q ++ processSegment parseTC closeTag [] segment := by
  unfold processSegment
  cases findSubstr closeTag segment with
  | none => simp
  | some jsonEnd =>
    dsimp only
    cases parseTC (trimList (segment.take jsonEnd)) with
    | none => simp
    | some val =>
      dsimp only
      split_ifs <;> simp

theorem foldl_processSegment_append (parseTC : List Char → Option ToolCallParsed)
    (closeTag : List Char) :
    ∀ (segs : List (List Char)) (q : List ShellToolKind),
      List.foldl (processSegment parseTC closeTag) q segs =
        q ++ List.foldl (processSegment parseTC closeTag) [] segs := by
  intro segs
  induction segs with
  | nil => intro q; simp
  | cons s rest ih =>
    intro q
    simp only [List.foldl_cons]
    rw [ih (processSegment parseTC closeTag q s),
        ih (processSegment parseTC closeTag [] s),
        processSegment_append parseTC closeTag q s]
    simp [List.append_assoc]

/-- Claim C6, amended: the scan of an assistant message enqueues shell
tool-call kinds grouped by tag style, in the fixed style order `tool_call`,
`toolcall`, `tool-call`, `invoke` (within one style, in order of
appearance) — not in global order of appearance — and every tool result
named `shell` dequeues the oldest pending kind, defaulting to `Other` when
the queue is empty. -/
theorem spec_c6 :
    (∀ (parseTC : List Char → Option ToolCallParsed) (content : List Char)
        (q : List ShellToolKind),
      collect_shell_tool_kinds_from_assistant_calls parseTC content q =
        q ++ tagPairKinds parseTC content ("<tool_call>".data, "</tool_call>".data)
          ++ tagPairKinds parseTC content ("<toolcall>".data, "</toolcall>".data)
          ++ tagPairKinds parseTC content ("<tool-call>".data, "</tool-call>".data)
          ++ tagPairKinds parseTC content ("<invoke>".data, "</invoke>".data)) ∧
    (∀ q : List ShellToolKind,
      resultKind "shell".data q = (q.headD .Other, q.tail)) := by
  constructor
  · intro parseTC content q
    unfold collect_shell_tool_kinds_from_assistant_calls TAG_PAIRS
    simp only [List.foldl_cons, List.foldl_nil]
    unfold tagPairKinds
    rw [foldl_processSegment_append parseTC "</tool_call>".data _ q]
    rw [foldl_processSegment_append parseTC "</toolcall>".data]
    rw [foldl_processSegment_append parseTC "</tool-call>".data]
    rw [foldl_processSegment_append parseTC "</invoke>".data]
  · intro q
    unfold resultKind
    rw [if_neg (by decide), if_neg (by decide), if_pos rfl]
    cases q <;> simp

def c6Body1 : String :=
  "\x7b\"name\":\"shell\",\"arguments\":\x7b\"command\":\"touch a\"\x7d\x7d"

def c6Body2 : String :=
  "\x7b\"name\":\"shell\",\"arguments\":\x7b\"command\":\"cat a\"\x7d\x7d"

def c6Content : String :=
  "<invoke>" ++ c6Body1 ++ "</invoke><tool_call>" ++ c6Body2 ++ "</tool_call>"

/-- Concrete instance of the abstract JSON reading for the two envelope
bodies of `c6Content`; it agrees with `serde_json` semantics on its domain
(each body is a JSON object with name "shell" and the given
arguments.command string) and rejects everything else. -/
def c6Parse (js : List Char) : Option ToolCallParsed :=
  if js = c6Body1.data then some ⟨"shell", some "touch a".data⟩
  else if js = c6Body2.data then some ⟨"shell", some "cat a".data⟩
  else none

set_option maxRecDepth 100000 in
set_option maxHeartbeats 1000000 in
/-- Claim C6, counterexample: in `c6Content` an `invoke`-style shell call
with a write-like command appears strictly before a `tool_call`-style shell
call with a read-like command, yet the queue comes out `[ReadLike,
WriteLike]` — the reverse of appearance order — because tag styles are
processed grouped, `tool_call` first. -/
theorem spec_c6_counterexample :
    collect_shell_tool_kinds_from_assistant_calls c6Parse c6Content.data [] =
      [ShellToolKind.ReadLike, ShellToolKind.WriteLike] ∧
    findSubstr "<invoke>".data c6Content.data = some 0 ∧
    (findSubstr "<tool_call>".data c6Content.data).isSome = true ∧
    (findSubstr "<invoke>".data c6Content.data).getD 0 <
      (findSubstr "<tool_call>".data c6Content.data).getD 0 ∧
    [ShellToolKind.ReadLike, ShellToolKind.WriteLike] ≠
      [ShellToolKind.WriteLike, ShellToolKind.ReadLike] := by
  refine ⟨by decide, by decide, by decide, by decide, by decide⟩

theorem collect_tool_result_evidence_stop {content : List Char}
    (hnone : nextToolResult content = none) (q : List ShellToolKind)
    (sw sr : Bool) :
    collect_tool_result_evidence content q sw sr = (q, sw, sr) := by
  unfold collect_tool_result_evidence collectResultsAux
  simp [hnone]

/-- Claim C10, amended: the scan of a user message stops at a tool-result
marker only when the required delimiter is absent from the entire remainder
of the message — the delimiter searches run over everything after the
marker, so a delimiter belonging to a later well-formed result is consumed
and the scan continues.  When the closing double quote (case 1), the `>`
(case 2) or the closing `</tool_result>` (case 3) is truly absent from the
rest of the message, the scan of that message stops with the evidence state
unchanged, and messages later in the history are still scanned normally
(case 4). -/
theorem spec_c10 :
    (∀ (content : List Char) (q : List ShellToolKind) (sw sr : Bool) (i : Nat),
      findSubstr resultOpenMarker content = some i →
      findSubstr [dqc] (content.drop (i + resultOpenMarker.length)) = none →
      collect_tool_result_evidence content q sw sr = (q, sw, sr)) ∧
    (∀ (content : List Char) (q : List ShellToolKind) (sw sr : Bool) (i j : Nat),
      findSubstr resultOpenMarker content = some i →
      findSubstr [dqc] (content.drop (i + resultOpenMarker.length)) = some j →
      findSubstr ['>'] ((content.drop (i + resultOpenMarker.length)).drop j) = none →
      collect_tool_result_evidence content q sw sr = (q, sw, sr)) ∧
    (∀ (content : List Char) (q : List ShellToolKind) (sw sr : Bool) (i j k : Nat),
      findSubstr resultOpenMarker content = some i →
      findSubstr [dqc] (content.drop (i + resultOpenMarker.length)) = some j →
      findSubstr ['>'] ((content.drop (i + resultOpenMarker.length)).drop j) = some k →
      findSubstr resultCloseTag
        (((content.drop (i + resultOpenMarker.length)).drop j).drop (k + 1)) = none →
      collect_tool_result_evidence content q sw sr = (q, sw, sr)) ∧
    (∀ (parseTC : List Char → Option ToolCallParsed) (m : ChatMessage)
        (rest : List ChatMessage) (q : List ShellToolKind) (sw sr : Bool),
      m.role = "user" →
      collectToolEvidenceGo parseTC (m :: rest) q sw sr =
        collectToolEvidenceGo parseTC rest
          (collect_tool_result_evidence m.content.data q sw sr).1
          (collect_tool_result_evidence m.content.data q sw sr).2.1
          (collect_tool_result_evidence m.content.data q sw sr).2.2) := by
  refine ⟨?_, ?_, ?_, ?_⟩
  · intro content q sw sr i h1 h2
    refine collect_tool_result_evidence_stop ?_ q sw sr
    unfold nextToolResult
    rw [h1]
    dsimp only
    rw [h2]
  · intro content q sw sr i j h1 h2 h3
    refine collect_tool_result_evidence_stop ?_ q sw sr
    unfold nextToolResult
    rw [h1]
    dsimp only
    rw [h2]
    dsimp only
    rw [h3]
  · intro content q sw sr i j k h1 h2 h3 h4
    refine collect_tool_result_evidence_stop ?_ q sw sr
    unfold nextToolResult
    rw [h1]
    dsimp only
    rw [h2]
    dsimp only
    rw [h3]
    dsimp only
    rw [h4]
  · intro parseTC m rest q sw sr hrole
    conv_lhs => unfold collectToolEvidenceGo
    rw [hrole]
    simp

def c10Bad : String := "<tool_result name=\"file_write"

def c10Good : String := "<tool_result name=\"file_write\">ok</tool_result>"

def c10Content : String := c10Bad ++ c10Good ++ c10Good

/-- Claim C10, witness for the amended claim: a message consisting of a
tool-result marker whose name is never closed by a quote anywhere in the
message stops the scan with no evidence. -/
theorem spec_c10_witness :
    findSubstr resultOpenMarker c10Bad.data = some 0 ∧
    findSubstr [dqc] (c10Bad.data.drop (0 + resultOpenMarker.length)) = none ∧
    collect_tool_result_evidence c10Bad.data [] false false = ([], false, false) :=
  ⟨by decide, by decide,
    spec_c10.1 c10Bad.data [] false false 0 (by decide) (by decide)⟩

set_option maxRecDepth 100000 in
set_option maxHeartbeats 1000000 in
/-- Claim C10, counterexample: `c10Content` is a malformed tool result (its
name is not followed by a closing double quote before the next result)
followed by two well-formed successful `file_write` results, inside one
user message.  The claim predicts the scan stops at the malformed result
and later well-formed results in the same message contribute no evidence;
the code instead consumes the first well-formed result as the tail of the
malformed one and then processes the second normally, so write evidence IS
produced (`saw_successful_write` comes out true). -/
theorem spec_c10_counterexample :
    c10Content.data = c10Bad.data ++ c10Good.data ++ c10Good.data ∧
    findSubstr resultOpenMarker c10Bad.data = some 0 ∧
    findSubstr [dqc] (c10Bad.data.drop resultOpenMarker.length) = none ∧
    collect_tool_result_evidence c10Good.data [] false false = ([], true, false) ∧
    collect_tool_result_evidence c10Content.data [] false false = ([], true, false) := by
  refine ⟨by decide, by decide, by decide, by decide, by decide⟩

/-! ## Task engine (src/agent/task_engine.rs) -/

/-- Minimal JSON value model for the event payloads the engine writes with
`serde_json::json!` (all of them are flat objects of strings and numbers). -/
inductive JVal where
  | s (v : String)
  | n (v : Nat)
deriving DecidableEq, Repr

abbrev EventPayload := List (String × JVal)

structure TaskEngineConfig where
  max_continuation_rounds : Nat
  provider_retry_limit : Nat
deriving DecidableEq, Repr

/-- The `Default` impl of `TaskEngineConfig`. -/
def TaskEngineConfig.defaultConfig : TaskEngineConfig := ⟨4, 2⟩

/-- Engine-side view of the store row of one task (status, events list,
counters, last response, artifacts) plus the conversational history and the
number of invocations of the external tool-call loop so far.  The engine
issues store writes best-effort (`let _ = ... .ok()`), which the model
reflects by applying them unconditionally. -/
structure EngineSt where
  invocations : Nat
  history : List ChatMessage
  status : TaskStatus
  events : List (String × Option EventPayload)
  attempt_count : Nat
  provider_retry_count : Nat
  last_response : Option String
  artifacts : List (String × Option String × Bool)
deriving DecidableEq, Repr

/-- Embedding of `is_retryable_provider_transport_error` (the rendered error
string is the model of `format!("{err:#}")`). -/
def is_retryable_provider_transport_error (e : String) : Bool :=
  let lower := e.data.map asciiLowerChar
  hasSubstr lower "transport error".data ||
    hasSubstr lower "error sending request for url".data ||
    hasSubstr lower "connection reset".data ||
    hasSubstr lower "connection refused".data ||
    hasSubstr lower "timed out".data

/-- Embedding of `upsert_artifact_verification` restricted to one task:
insert or update the row keyed by path (`ON CONFLICT(task_id, path) DO
UPDATE`). -/
def upsertArtifact (artifacts : List (String × Option String × Bool))
    (path : String) (checksum : Option String) (verified : Bool) :
    List (String × Option String × Bool) :=
  if artifacts.any (fun a => a.1 == path) then
    artifacts.map (fun a => if a.1 == path then (path, checksum, verified) else a)
  else
    artifacts ++ [(path, checksum, verified)]

/-- The external `run_tool_call_loop`, abstracted: invocation number `i`
with the current history yields the history as mutated by the loop and
either the reply text or a rendered error. -/
abbrev ToolLoopScript := Nat → List ChatMessage → List ChatMessage × Except String String

/-- The `for attempt in 0..=provider_retry_limit` loop of
`execute_single_round_with_retry`; the structural fuel `ra` starts at
`limit + 1`, the number of loop iterations, and the fuel-exhausted branch is
the `last_error` fall-through after the loop. -/
def execRoundAux (script : ToolLoopScript) (limit : Nat) :
    Nat → Nat → EngineSt → Option String → EngineSt × Except String String
  | 0, _, st, lastErr =>
    (st, .error (lastErr.getD "Unknown task round error"))
  | ra + 1, attempt, st, lastErr =>
    let pr := script st.invocations st.history
    let st1 := { st with invocations := st.invocations + 1, history := pr.1 }
    match pr.2 with
    | .ok text => (st1, .ok text)
    | .error e =>
      if is_retryable_provider_transport_error e && decide (attempt < limit) then
        let st2 := { st1 with
          provider_retry_count := st1.provider_retry_count + 1,
          events := st1.events ++
            [("provider_retry",
              some [("attempt", JVal.n (attempt + 1)), ("error", JVal.s e)])] }
        execRoundAux script limit ra (attempt + 1) st2 (some e)
      else (st1, .error e)

def execute_single_round_with_retry (cfg : TaskEngineConfig)
    (script : ToolLoopScript) (st : EngineSt) : EngineSt × Except String String :=
  execRoundAux script cfg.provider_retry_limit (cfg.provider_retry_limit + 1) 0 st none

theorem execute_round_ok {cfg : TaskEngineConfig} {script : ToolLoopScript}
    {st : EngineSt} {t : String}
    (h : (script st.invocations st.history).2 = .ok t) :
    execute_single_round_with_retry cfg script st =
      ({ st with
          invocations := st.invocations + 1,
          history := (script st.invocations st.history).1 }, .ok t) := by
  unfold execute_single_round_with_retry execRoundAux
  dsimp only
  rw [h]

theorem execRoundAux_ok {script : ToolLoopScript} {limit ra attempt : Nat}
    {st : EngineSt} {lastErr : Option String} {t : String}
    (h : (script st.invocations st.history).2 = .ok t) :
    execRoundAux script limit (ra + 1) attempt st lastErr =
      ({ st with
          invocations := st.invocations + 1,
          history := (script st.invocations st.history).1 }, .ok t) := by
  unfold execRoundAux
  dsimp only
  rw [h]

theorem execRoundAux_err_stop {script : ToolLoopScript} {limit ra attempt : Nat}
    {st : EngineSt} {lastErr : Option String} {e : String}
    (h : (script st.invocations st.history).2 = .error e)
    (hcond : (is_retryable_provider_transport_error e && decide (attempt < limit)) = false) :
    execRoundAux script limit (ra + 1) attempt st lastErr =
      ({ st with
          invocations := st.invocations + 1,
          history := (script st.invocations st.history).1 }, .error e) := by
  unfold execRoundAux
  dsimp only
  rw [h]
  dsimp only
  rw [if_neg (by simp [hcond])]

theorem execRoundAux_err_retry {script : ToolLoopScript} {limit ra attempt : Nat}
    {st : EngineSt} {lastErr : Option String} {e : String}
    (h : (script st.invocations st.history).2 = .error e)
    (hcond : (is_retryable_provider_transport_error e && decide (attempt < limit)) = true) :
    execRoundAux script limit (ra + 1) attempt st lastErr =
      execRoundAux script limit ra (attempt + 1)
        { st with
            invocations := st.invocations + 1,
            history := (script st.invocations st.history).1,
            provider_retry_count := st.provider_retry_count + 1,
            events := st.events ++
              [("provider_retry",
                some [("attempt", JVal.n (attempt + 1)), ("error", JVal.s e)])] }
        (some e) := by
  conv_lhs => unfold execRoundAux
  dsimp only
  rw [h]
  dsimp only
  rw [if_pos hcond]

theorem execRoundAux_spec (script : ToolLoopScript) (limit : Nat) :
    ∀ (ra attempt : Nat) (st : EngineSt) (lastErr : Option String),
      attempt + ra = limit + 1 → 1 ≤ ra →
      ∃ k, 1 ≤ k ∧ k ≤ ra ∧
        (execRoundAux script limit ra attempt st lastErr).1.invocations =
          st.invocations + k ∧
        (execRoundAux script limit ra attempt st lastErr).1.provider_retry_count =
          st.provider_retry_count + (k - 1) ∧
        (∃ evs, (execRoundAux script limit ra attempt st lastErr).1.events =
            st.events ++ evs ∧ evs.length = k - 1 ∧
            ∀ p ∈ evs, p.1 = "provider_retry") ∧
        (execRoundAux script limit ra attempt st lastErr).1.status = st.status ∧
        (execRoundAux script limit ra attempt st lastErr).1.attempt_count =
          st.attempt_count ∧
        (execRoundAux script limit ra attempt st lastErr).1.last_response =
          st.last_response := by
  intro ra
  induction ra with
  | zero => intro attempt st lastErr hinv h1; omega
  | succ n ih =>
    intro attempt st lastErr hinv h1
    cases hpr : (script st.invocations st.history).2 with
    | ok t =>
      rw [execRoundAux_ok hpr]
      exact ⟨1, le_refl 1, by omega, by simp, by simp,
        ⟨[], by simp, by simp, by simp⟩, rfl, rfl, rfl⟩
    | error e =>
      by_cases hcond :
          (is_retryable_provider_transport_error e && decide (attempt < limit)) = true
      · rw [execRoundAux_err_retry hpr hcond]
        have hlt : attempt < limit :=
          of_decide_eq_true (Bool.and_eq_true _ _ |>.mp hcond).2
        have hn1 : 1 ≤ n := by omega
        obtain ⟨k, hk1, hk2, hinvoc, hprc, ⟨evs, hevs, hlen, hall⟩, hst, hatt, hlr⟩ :=
          ih (attempt + 1) _ (some e) (by omega) hn1
        refine ⟨k + 1, by omega, by omega, ?_, ?_, ?_, ?_, ?_, ?_⟩
        · rw [hinvoc]; dsimp only; omega
        · rw [hprc]; dsimp only; omega
        · refine ⟨("provider_retry",
            some [("attempt", JVal.n (attempt + 1)), ("error", JVal.s e)]) :: evs, ?_, ?_, ?_⟩
          · rw [hevs]; dsimp only; simp
          · simp; omega
          · intro p hp
            rcases List.mem_cons.mp hp with rfl | hp2
            · rfl
            · exact hall p hp2
        · rw [hst]
        · rw [hatt]
        · rw [hlr]
      · rw [execRoundAux_err_stop hpr (by simpa using hcond)]
        exact ⟨1, le_refl 1, by omega, by simp, by simp,
          ⟨[], by simp, by simp, by simp⟩, rfl, rfl, rfl⟩

/-- Claim C4: an error is retryable iff its lowercased rendering contains
one of the five transport substrings; `execute_single_round_with_retry`
performs at most `provider_retry_limit + 1` invocations of the tool-call
loop, increments `provider_retry_count` and appends one `provider_retry`
event per retry, and propagates a non-retryable error immediately with no
retry, no counter increment and no event. -/
theorem spec_c4 (cfg : TaskEngineConfig) (script : ToolLoopScript) (st : EngineSt) :
    (∀ e : String, is_retryable_provider_transport_error e = true ↔
      (hasSubstr (e.data.map asciiLowerChar) "transport error".data = true ∨
       hasSubstr (e.data.map asciiLowerChar) "error sending request for url".data = true ∨
       hasSubstr (e.data.map asciiLowerChar) "connection reset".data = true ∨
       hasSubstr (e.data.map asciiLowerChar) "connection refused".data = true ∨
       hasSubstr (e.data.map asciiLowerChar) "timed out".data = true)) ∧
    (∃ k, 1 ≤ k ∧ k ≤ cfg.provider_retry_limit + 1 ∧
      (execute_single_round_with_retry cfg script st).1.invocations =
        st.invocations + k ∧
      (execute_single_round_with_retry cfg script st).1.provider_retry_count =
        st.provider_retry_count + (k - 1) ∧
      (∃ evs, (execute_single_round_with_retry cfg script st).1.events =
          st.events ++ evs ∧ evs.length = k - 1 ∧
          ∀ p ∈ evs, p.1 = "provider_retry")) ∧
    (∀ e : String, (script st.invocations st.history).2 = .error e →
      is_retryable_provider_transport_error e = false →
      execute_single_round_with_retry cfg script st =
        ({ st with
            invocations := st.invocations + 1,
            history := (script st.invocations st.history).1 }, .error e)) := by
  refine ⟨?_, ?_, ?_⟩
  · intro e
    unfold is_retryable_provider_transport_error
    dsimp only
    simp only [Bool.or_eq_true]
    tauto
  · obtain ⟨k, h1, h2, h3, h4, h5, _, _, _⟩ :=
      execRoundAux_spec script cfg.provider_retry_limit
        (cfg.provider_retry_limit + 1) 0 st none (by omega) (by omega)
    exact ⟨k, h1, h2, h3, h4, h5⟩
  · intro e he hret
    unfold execute_single_round_with_retry
    rw [execRoundAux_err_stop he (by simp [hret])]

def c4cfg : TaskEngineConfig := ⟨4, 2⟩

def c4script : ToolLoopScript := fun _ h => (h, .error "bad request")

def c4st : EngineSt := ⟨0, [], .Running, [], 0, 0, none, []⟩

/-- Claim C4, witness: with a script that always fails with the
non-retryable error "bad request", the round is attempted exactly once and
the error propagates with no retry bookkeeping. -/
theorem spec_c4_witness :
    (c4script c4st.invocations c4st.history).2 = .error "bad request" ∧
    is_retryable_provider_transport_error "bad request" = false ∧
    execute_single_round_with_retry c4cfg c4script c4st =
      ({ c4st with
          invocations := c4st.invocations + 1,
          history := (c4script c4st.invocations c4st.history).1 }, .error "bad request") :=
  ⟨rfl, by decide, (spec_c4 c4cfg c4script c4st).2.2 "bad request" rfl (by decide)⟩

structure TaskRunOutcome where
  final_response : String
  write_verified : Bool
deriving DecidableEq, Repr

/-- The nudge user message appended verbatim on every non-final Continue. -/
def nudgeText : String :=
  "[Task Engine]\n任务尚未完成。请继续执行必要的工具操作并在有可验证结果后再给最终答复。不要仅汇报进行中状态。"

/-- Embedding of the `for round in 0..max_continuation_rounds` loop of
`run_existing_task`; the structural fuel `remaining` counts rounds left and
the fuel-exhausted branch is the post-loop exhaustion failure.  The
`consecutive_progress_only` parameter carries the counter value before the
increment of the current round. -/
def runLoopAux (parseTC : List Char → Option ToolCallParsed)
    (script : ToolLoopScript) (cfg : TaskEngineConfig) :
    Nat → Nat → EngineSt → Bool → Nat → EngineSt × Except String TaskRunOutcome
  | 0, _, st, _, _ =>
    ({ st with
        status := .Failed,
        events := st.events ++
          [("failed", some [("reason", JVal.s "max_continuation_rounds_exhausted")])] },
     .error ("Task exceeded max continuation rounds (" ++
       toString cfg.max_continuation_rounds ++ ")"))
  | remaining + 1, round, st, write_verified, consecutive_progress_only =>
    let rr := execute_single_round_with_retry cfg script st
    match rr.2 with
    | .error e =>
      ({ rr.1 with
          status := .Failed,
          events := rr.1.events ++
            [("failed",
              some [("reason", JVal.s "provider_error"), ("error", JVal.s e)])] },
       .error e)
    | .ok response =>
      let st2 := { rr.1 with
        attempt_count := rr.1.attempt_count + 1,
        last_response := some response }
      let ev := evaluate_completion parseTC response st2.history
      let stepWv :=
        if ev.saw_post_write_read_after_success && !write_verified then
          ({ st2 with
              artifacts := upsertArtifact st2.artifacts "__history_verified__" none true,
              events := st2.events ++
                [("tool_write_verified", (none : Option EventPayload))] },
           true)
        else (st2, write_verified)
      match ev.decision with
      | .Complete =>
        ({ stepWv.1 with
            status := .Completed,
            events := stepWv.1.events ++
              [("completed", some [("round", JVal.n (round + 1))])] },
         .ok ⟨response, stepWv.2⟩)
      | .Continue reason =>
        let st4 := { stepWv.1 with
          events := stepWv.1.events ++
            [("continue",
              some [("reason", JVal.s reason), ("round", JVal.n (round + 1))])] }
        if 3 ≤ consecutive_progress_only + 1 then
          ({ st4 with
              status := .Failed,
              events := st4.events ++
                [("failed", some [("reason", JVal.s "stalled_loop")])] },
           .error "Task stalled in repeated progress-only replies")
        else
          runLoopAux parseTC script cfg remaining (round + 1)
            { st4 with history := st4.history ++ [ChatMessage.user nudgeText] }
            stepWv.2 (consecutive_progress_only + 1)

/-- Embedding of `run_existing_task` (the loop part; task ids live outside
the model). -/
def run_existing_task (parseTC : List Char → Option ToolCallParsed)
    (script : ToolLoopScript) (cfg : TaskEngineConfig) (st : EngineSt) :
    EngineSt × Except String TaskRunOutcome :=
  runLoopAux parseTC script cfg cfg.max_continuation_rounds 0 st false 0

/-- State and write-verified flag after one successful round whose
evaluation is `Continue rsn` and which does not trip the stall counter:
tool-loop history mutation, attempt bump, last response, the optional
first-time write-verification bookkeeping, the `continue` event and the
nudge message. -/
def contStepState (parseTC : List Char → Option ToolCallParsed)
    (script : ToolLoopScript) (st : EngineSt) (t rsn : String) (wv : Bool)
    (round : Nat) : EngineSt × Bool :=
  let st2 : EngineSt := { st with
    invocations := st.invocations + 1,
    history := (script st.invocations st.history).1,
    attempt_count := st.attempt_count + 1,
    last_response := some t }
  let ev := evaluate_completion parseTC t (script st.invocations st.history).1
  let stepWv :=
    if ev.saw_post_write_read_after_success && !wv then
      ({ st2 with
          artifacts := upsertArtifact st2.artifacts "__history_verified__" none true,
          events := st2.events ++
            [("tool_write_verified", (none : Option EventPayload))] }, true)
    else (st2, wv)
  ({ stepWv.1 with
      events := stepWv.1.events ++
        [("continue", some [("reason", JVal.s rsn), ("round", JVal.n (round + 1))])],
      history := stepWv.1.history ++ [ChatMessage.user nudgeText] },
   stepWv.2)

/-- State after a third consecutive Continue: as `contStepState` but with no
nudge, status Failed and the `stalled_loop` failure event appended. -/
def stallState (parseTC : List Char → Option ToolCallParsed)
    (script : ToolLoopScript) (st : EngineSt) (t rsn : String) (wv : Bool)
    (round : Nat) : EngineSt :=
  let st2 : EngineSt := { st with
    invocations := st.invocations + 1,
    history := (script st.invocations st.history).1,
    attempt_count := st.attempt_count + 1,
    last_response := some t }
  let ev := evaluate_completion parseTC t (script st.invocations st.history).1
  let stepWv :=
    if ev.saw_post_write_read_after_success && !wv then
      ({ st2 with
          artifacts := upsertArtifact st2.artifacts "__history_verified__" none true,
          events := st2.events ++
            [("tool_write_verified", (none : Option EventPayload))] }, true)
    else (st2, wv)
  { stepWv.1 with
      status := .Failed,
      events := (stepWv.1.events ++
        [("continue", some [("reason", JVal.s rsn), ("round", JVal.n (round + 1))])]) ++
        [("failed", some [("reason", JVal.s "stalled_loop")])] }

theorem runLoopAux_continue_eq (parseTC : List Char → Option ToolCallParsed)
    (script : ToolLoopScript) (cfg : TaskEngineConfig)
    {st : EngineSt} {t rsn : String}
    (hok1 : (script st.invocations st.history).2 = .ok t)
    (hcont1 : (evaluate_completion parseTC t
      (script st.invocations st.history).1).decision = .Continue rsn)
    (remaining round : Nat) (wv : Bool) (cons : Nat) (hcons : cons + 1 < 3) :
    runLoopAux parseTC script cfg (remaining + 1) round st wv cons =
      runLoopAux parseTC script cfg remaining (round + 1)
        (contStepState parseTC script st t rsn wv round).1
        (contStepState parseTC script st t rsn wv round).2 (cons + 1) := by
  conv_lhs => unfold runLoopAux
  dsimp only
  rw [@execute_round_ok cfg script st t hok1]
  dsimp only
  rw [hcont1]
  dsimp only
  rw [if_neg (by omega)]
  unfold contStepState
  dsimp only

theorem runLoopAux_stall_eq (parseTC : List Char → Option ToolCallParsed)
    (script : ToolLoopScript) (cfg : TaskEngineConfig)
    {st : EngineSt} {t rsn : String}
    (hok1 : (script st.invocations st.history).2 = .ok t)
    (hcont1 : (evaluate_completion parseTC t
      (script st.invocations st.history).1).decision = .Continue rsn)
    (remaining round : Nat) (wv : Bool) :
    runLoopAux parseTC script cfg (remaining + 1) round st wv 2 =
      (stallState parseTC script st t rsn wv round,
       .error "Task stalled in repeated progress-only replies") := by
  conv_lhs => unfold runLoopAux
  dsimp only
  rw [@execute_round_ok cfg script st t hok1]
  dsimp only
  rw [hcont1]
  dsimp only
  rw [if_pos (by omega)]
  unfold stallState
  dsimp only

theorem contStepState_facts (parseTC : List Char → Option ToolCallParsed)
    (script : ToolLoopScript) (st : EngineSt) (t rsn : String) (wv : Bool)
    (round : Nat) :
    (contStepState parseTC script st t rsn wv round).1.invocations =
      st.invocations + 1 ∧
    (contStepState parseTC script st t rsn wv round).1.status = st.status := by
  unfold contStepState
  dsimp only
  by_cases hb : ((evaluate_completion parseTC t
      (script st.invocations st.history).1).saw_post_write_read_after_success
      && !wv) = true <;>
    simp [hb]

theorem stallState_facts (parseTC : List Char → Option ToolCallParsed)
    (script : ToolLoopScript) (st : EngineSt) (t rsn : String) (wv : Bool)
    (round : Nat) :
    (stallState parseTC script st t rsn wv round).invocations =
      st.invocations + 1 ∧
    (stallState parseTC script st t rsn wv round).status = .Failed ∧
    ∃ pre, (stallState parseTC script st t rsn wv round).events =
      pre ++ [("failed", some [("reason", JVal.s "stalled_loop")])] := by
  unfold stallState
  dsimp only
  refine ⟨?_, rfl, ⟨_, rfl⟩⟩
  by_cases hb : ((evaluate_completion parseTC t
      (script st.invocations st.history).1).saw_post_write_read_after_success
      && !wv) = true <;>
    simp [hb]

/-- Claim C3: whenever every round's tool-call loop succeeds and every
evaluation is a Continue (so the first three rounds are three consecutive
Continue decisions), `run_existing_task` ends with the task Failed, a final
`failed` event whose payload reason is `stalled_loop`, and the error "Task
stalled in repeated progress-only replies", after exactly three tool-call
loop invocations — a fourth round is never executed. -/
theorem spec_c3 (parseTC : List Char → Option ToolCallParsed)
    (script : ToolLoopScript) (cfg : TaskEngineConfig) (st : EngineSt)
    (hmax : 3 ≤ cfg.max_continuation_rounds)
    (hok : ∀ i h, ∃ t, (script i h).2 = Except.ok t)
    (hcont : ∀ i h t, (script i h).2 = Except.ok t →
      ∃ rsn, (evaluate_completion parseTC t (script i h).1).decision =
        CompletionDecision.Continue rsn) :
    ∃ st', run_existing_task parseTC script cfg st =
        (st', .error "Task stalled in repeated progress-only replies") ∧
      st'.status = .Failed ∧
      (∃ pre, st'.events =
        pre ++ [("failed", some [("reason", JVal.s "stalled_loop")])]) ∧
      st'.invocations = st.invocations + 3 := by
  obtain ⟨t1, ht1⟩ := hok st.invocations st.history
  obtain ⟨r1, hr1⟩ := hcont _ _ _ ht1
  unfold run_existing_task
  rw [show cfg.max_continuation_rounds = (cfg.max_continuation_rounds - 3 + 2) + 1
    from by omega]
  rw [runLoopAux_continue_eq parseTC script cfg ht1 hr1
    (cfg.max_continuation_rounds - 3 + 2) 0 false 0 (by omega)]
  obtain ⟨hinvA, hstatA⟩ := contStepState_facts parseTC script st t1 r1 false 0
  set stA := (contStepState parseTC script st t1 r1 false 0).1 with hstA
  set wvA := (contStepState parseTC script st t1 r1 false 0).2 with hwvA
  obtain ⟨t2, ht2⟩ := hok stA.invocations stA.history
  obtain ⟨r2, hr2⟩ := hcont _ _ _ ht2
  rw [show cfg.max_continuation_rounds - 3 + 2 =
    (cfg.max_continuation_rounds - 3 + 1) + 1 from by omega]
  rw [runLoopAux_continue_eq parseTC script cfg ht2 hr2
    (cfg.max_continuation_rounds - 3 + 1) 1 wvA 1 (by omega)]
  obtain ⟨hinvB, hstatB⟩ := contStepState_facts parseTC script stA t2 r2 wvA 1
  set stB := (contStepState parseTC script stA t2 r2 wvA 1).1 with hstB
  set wvB := (contStepState parseTC script stA t2 r2 wvA 1).2 with hwvB
  obtain ⟨t3, ht3⟩ := hok stB.invocations stB.history
  obtain ⟨r3, hr3⟩ := hcont _ _ _ ht3
  rw [show cfg.max_continuation_rounds - 3 + 1 =
    (cfg.max_continuation_rounds - 3) + 1 from by omega]
  rw [runLoopAux_stall_eq parseTC script cfg ht3 hr3
    (cfg.max_continuation_rounds - 3) 2 wvB]
  obtain ⟨hinvC, hstatC, hevC⟩ := stallState_facts parseTC script stB t3 r3 wvB 2
  exact ⟨stallState parseTC script stB t3 r3 wvB 2, rfl, hstatC, hevC, by omega⟩

theorem evaluate_completion_guardrail (parseTC : List Char → Option ToolCallParsed)
    (history : List ChatMessage) :
    (evaluate_completion parseTC "[Guardrail Notice]" history).decision =
      .Continue "guardrail_notice" := by
  unfold evaluate_completion
  dsimp only
  rw [if_pos (by decide)]

def c3parse : List Char → Option ToolCallParsed := fun _ => none

def c3script : ToolLoopScript := fun _ h => (h, .ok "[Guardrail Notice]")

def c3cfg : TaskEngineConfig := ⟨4, 2⟩

def c3st : EngineSt := ⟨0, [], .Running, [], 0, 0, none, []⟩

/-- Claim C3, witness: with the default configuration and a script that
always answers "[Guardrail Notice]" (every evaluation a Continue), the task
stalls after exactly three rounds. -/
theorem spec_c3_witness :
    ∃ st', run_existing_task c3parse c3script c3cfg c3st =
        (st', .error "Task stalled in repeated progress-only replies") ∧
      st'.status = .Failed ∧
      (∃ pre, st'.events =
        pre ++ [("failed", some [("reason", JVal.s "stalled_loop")])]) ∧
      st'.invocations = c3st.invocations + 3 := by
  refine spec_c3 c3parse c3script c3cfg c3st (by decide)
    (fun i h => ⟨"[Guardrail Notice]", rfl⟩) ?_
  intro i h t ht
  have hteq : t = "[Guardrail Notice]" := by
    simpa [c3script] using ht.symm
  subst hteq
  exact ⟨"guardrail_notice", evaluate_completion_guardrail c3parse _⟩

/-! ## Task store (src/agent/task_store.rs) -/

structure TaskRunRow where
  id : String
  channel : String
  sender_key : String
  reply_target : String
  status : TaskStatus
  original_request : String
  last_response : Option String
  attempt_count : Nat
  provider_retry_count : Nat
  created_at : String
  updated_at : String
  completed_at : Option String
deriving DecidableEq, Repr

/-- Embedding of `insert_task_run`: the SQL INSERT appends a fresh row in
status Queued, zeroed counters, `created_at = updated_at = now` and null
`completed_at`; a duplicate primary key makes the INSERT fail, modelled as
the error branch.  `now` stands for the `now_rfc3339()` timestamp. -/
def insert_task_run (db : List TaskRunRow)
    (now id channel sender_key reply_target original_request : String) :
    Except String (List TaskRunRow) :=
  if db.any (fun r => r.id == id) then
    .error ("Failed to insert task run " ++ sqcStr ++ id ++ sqcStr)
  else
    .ok (db ++ [⟨id, channel, sender_key, reply_target, .Queued,
      original_request, none, 0, 0, now, now, none⟩])

/-- Embedding of `update_status`: UPDATE every row matching the id with the
new status, `updated_at = now` and `completed_at = now` iff the new status
is terminal (else null); when no row changed, fail with the not-found
error. -/
def update_status (db : List TaskRunRow) (now id : String)
    (status : TaskStatus) : Except String (List TaskRunRow) :=
  let completed_at := if status.is_terminal then some now else none
  if db.countP (fun r => r.id == id) = 0 then
    .error ("Task run " ++ sqcStr ++ id ++ sqcStr ++ " not found")
  else
    .ok (db.map (fun r =>
      if r.id == id then
        { r with status := status, updated_at := now, completed_at := completed_at }
      else r))

/-- Row invariant of claim C8: `completed_at` is non-null iff the status is
terminal. -/
def completedAtInv (r : TaskRunRow) : Prop :=
  r.completed_at ≠ none ↔ r.status.is_terminal = true

instance : DecidablePred completedAtInv := fun r => by
  unfold completedAtInv
  infer_instance

/-- Claim C8: `insert_task_run` creates the row in status Queued with null
`completed_at`; `update_status` writes `completed_at = now` exactly when
the new status is terminal and null otherwise, fails with a not-found error
exactly when no row with the id exists, and both operations preserve the
invariant that `completed_at` is non-null iff the status is terminal. -/
theorem spec_c8 :
    (∀ (db : List TaskRunRow)
        (now id channel sender_key reply_target original_request : String)
        (db' : List TaskRunRow),
      insert_task_run db now id channel sender_key reply_target original_request =
        .ok db' →
      db' = db ++ [⟨id, channel, sender_key, reply_target, .Queued,
        original_request, none, 0, 0, now, now, none⟩]) ∧
    (∀ (db : List TaskRunRow) (now id : String) (status : TaskStatus)
        (db' : List TaskRunRow),
      update_status db now id status = .ok db' →
      ∀ r ∈ db', r.id = id →
        r.status = status ∧
        r.completed_at = (if status.is_terminal then some now else none)) ∧
    (∀ (db : List TaskRunRow) (now id : String) (status : TaskStatus),
      (∃ e, update_status db now id status = .error e) ↔ ∀ r ∈ db, r.id ≠ id) ∧
    (∀ (db : List TaskRunRow)
        (now id channel sender_key reply_target original_request : String)
        (db' : List TaskRunRow),
      (∀ r ∈ db, completedAtInv r) →
      insert_task_run db now id channel sender_key reply_target original_request =
        .ok db' →
      ∀ r ∈ db', completedAtInv r) ∧
    (∀ (db : List TaskRunRow) (now id : String) (status : TaskStatus)
        (db' : List TaskRunRow),
      (∀ r ∈ db, completedAtInv r) →
      update_status db now id status = .ok db' →
      ∀ r ∈ db', completedAtInv r) := by
  refine ⟨?_, ?_, ?_, ?_, ?_⟩
  · intro db now id channel sender_key reply_target original_request db' h
    unfold insert_task_run at h
    split_ifs at h
    injection h with h2
    exact h2.symm
  · intro db now id status db' h r hr hid
    unfold update_status at h
    dsimp only at h
    split_ifs at h with hc ht <;>
    · injection h with h2
      subst h2
      obtain ⟨r0, hr0, rfl⟩ := List.mem_map.mp hr
      by_cases hb : (r0.id == id) = true
      · simp_all [hb]
      · simp only [hb, if_false] at hid
        exact absurd hid (by simpa using hb)
  · intro db now id status
    unfold update_status
    dsimp only
    constructor
    · rintro ⟨e, he⟩
      split_ifs at he with hc2
      intro r hr
      simpa using List.countP_eq_zero.mp hc2 r hr
    · intro hall
      have hc : db.countP (fun r => r.id == id) = 0 :=
        List.countP_eq_zero.mpr (fun r hr => by simpa using hall r hr)
      exact ⟨_, by rw [if_pos hc]⟩
  · intro db now id channel sender_key reply_target original_request db' hinv h r hr
    unfold insert_task_run at h
    split_ifs at h
    injection h with h2
    subst h2
    rcases List.mem_append.mp hr with hr1 | hr2
    · exact hinv r hr1
    · have hre : r = ⟨id, channel, sender_key, reply_target, .Queued,
          original_request, none, 0, 0, now, now, none⟩ := by
        simpa using hr2
      subst hre
      unfold completedAtInv
      simp [TaskStatus.is_terminal]
  · intro db now id status db' hinv h r hr
    unfold update_status at h
    dsimp only at h
    split_ifs at h with hc ht <;>
    · injection h with h2
      subst h2
      obtain ⟨r0, hr0, rfl⟩ := List.mem_map.mp hr
      by_cases hb : (r0.id == id) = true
      · unfold completedAtInv
        simp_all [hb]
      · simpa [hb] using hinv r0 hr0

def c8row : TaskRunRow :=
  ⟨"t1", "ch", "sk", "rt", .Queued, "req", none, 0, 0, "now1", "now1", none⟩

def c8rowDone : TaskRunRow :=
  ⟨"t1", "ch", "sk", "rt", .Completed, "req", none, 0, 0, "now1", "now2",
   some "now2"⟩

/-- Claim C8, witness: a freshly inserted Queued row satisfies the
invariant, and completing it through `update_status` sets `completed_at`
and keeps the invariant. -/
theorem spec_c8_witness :
    (∀ r ∈ [c8row], completedAtInv r) ∧
    update_status [c8row] "now2" "t1" TaskStatus.Completed = .ok [c8rowDone] ∧
    (∀ r ∈ [c8rowDone], completedAtInv r) :=
  ⟨by decide, by rfl,
    spec_c8.2.2.2.2 [c8row] "now2" "t1" TaskStatus.Completed [c8rowDone]
      (by decide) (by rfl)⟩

/-- Claim C9, witness for the amended claim: " Queued " (whitespace and a
capital letter) normalises to "queued" and parses. -/
theorem spec_c9_witness :
    TaskStatus.parse " Queued ".data = some TaskStatus.Queued :=
  ((spec_c9 " Queued ".data).1 TaskStatus.Queued).mpr (by decide)
